import Mathlib

/-!
Verification development for the `mwapi` package of wiki-saikou-go, a
session-aware MediaWiki Action API client. The definitions below are a
shallow embedding of the Go source: Go maps (`map[string]string`,
`map[TokenType]string`, the string-valued part of `map[string]any`) are
modelled as association lists with Go-map lookup semantics (absent key
reads as `""`), `url.Values` as association lists of value lists, Go
`error` values as an explicit inductive (`GoError`), and every network
interaction as an oracle indexed by the attempt number (the network's
answer to the i-th call of the given kind). Stateful client code is
embedded as explicit state passing over `ClientState`; bounded `for`
loops become structurally recursive functions on the remaining number of
iterations.
-/

namespace WikiSaikou

/-! ### Go map `map[string]string` (also `map[TokenType]string`) -/

/-- Association-list model of a Go string map; duplicate keys never arise
from the operations below. -/
def SMap := List (String × String)

instance : DecidableEq SMap := by unfold SMap; infer_instance

/-- Go map read `m[k]`: the zero value `""` when the key is absent. -/
def sget : SMap → String → String
  | [], _ => ""
  | (k', v) :: rest, k => if k' = k then v else sget rest k

/-- Go map write `m[k] = v`. -/
def sset : SMap → String → String → SMap
  | [], k, v => [(k, v)]
  | (k', v') :: rest, k, v =>
      if k' = k then (k, v) :: rest else (k', v') :: sset rest k v

/-- Go `delete(m, k)`. -/
def sdel : SMap → String → SMap
  | [], _ => []
  | (k', v') :: rest, k =>
      if k' = k then sdel rest k else (k', v') :: sdel rest k

/-! ### `url.Values` (`map[string][]string`) -/

/-- Association-list model of Go's `url.Values`. -/
def Values := List (String × List String)

instance : DecidableEq Values := by unfold Values; infer_instance

/-- Model of `url.Values.Get`: first value for the key, `""` when the key is
absent or has no values. -/
def vget : Values → String → String
  | [], _ => ""
  | (k', vs) :: rest, k => if k' = k then vs.headD "" else vget rest k

/-- Model of `url.Values.Set`: replace all values of the key by a single one. -/
def vset : Values → String → String → Values
  | [], k, v => [(k, [v])]
  | (k', vs) :: rest, k, v =>
      if k' = k then (k, [v]) :: rest else (k', vs) :: vset rest k v

/-- Model of `url.Values.Del`: remove the key. -/
def vdel : Values → String → Values
  | [], _ => []
  | (k', vs) :: rest, k =>
      if k' = k then vdel rest k else (k', vs) :: vdel rest k

/-- Keys of a `Values`. -/
def vkeys (v : Values) : List String := v.map Prod.fst

/-! ### Response envelope and error model (types.go / errors.go) -/

/-- Model of `MWError` (an envelope error object). -/
structure MWError where
  code : String
  info : String
  text : String
  deriving DecidableEq

/-- Model of `Response`: HTTP status plus the leniently parsed envelope.
The raw JSON body is not modelled as bytes; the parts the engine reads
from it (the envelope, `query.tokens`, `login`) are modelled directly. -/
structure Response where
  statusCode : Nat
  error : Option MWError
  errors : List MWError
  deriving DecidableEq

/-- Model of `MediaWikiApiError`. -/
structure MediaWikiApiError where
  code : String
  message : String
  httpStatus : Nat
  errs : List MWError
  response : Option Response
  deriving DecidableEq

/-- Model of Go `error` values the engine produces or receives:
`api` wraps a `*MediaWikiApiError`; `canceled` is a context
cancellation/deadline failure; `transport` is any other network failure;
`str` is a plain `fmt.Errorf`; `wrap` is `fmt.Errorf` with `%w`:
`join` is `errors.Join`. -/
inductive GoError where
  | api (e : MediaWikiApiError)
  | canceled
  | transport (msg : String)
  | str (msg : String)
  | wrap (msg : String) (inner : GoError)
  | join (a b : GoError)
  deriving DecidableEq

/-- Model of `IsMediaWikiApiError` (`errors.As` over the wrap/join chain). -/
def isMWApiError : GoError → Option MediaWikiApiError
  | .api e => some e
  | .wrap _ inner => isMWApiError inner
  | .join a b =>
      match isMWApiError a with
      | some e => some e
      | none => isMWApiError b
  | _ => none

/-- Model of `strings.ToLower`, restricted to ASCII case folding (every
string the engine lowercases and compares is ASCII). Defined by
structural recursion over the character list so it evaluates by
`decide`/`rfl`. -/
def strLower (s : String) : String := ⟨s.data.map Char.toLower⟩

/-- Model of `isTokenErrorCode` (errors.go). -/
def isTokenErrorCode (code : String) : Bool :=
  strLower code = "badtoken" ∨ strLower code = "notoken" ∨
    strLower code = "needtoken" ∨ strLower code = "wrongtoken"

/-- Model of `isAssertUserFailedCode` (errors.go). -/
def isAssertUserFailedCode (code : String) : Bool :=
  strLower code = "assertuserfailed" ∨ strLower code = "assertnameduserfailed"

/-- Model of `responseErrorCode` (tokens.go): first envelope error code,
`""` for a nil response or an error-free envelope. -/
def responseErrorCode : Option Response → String
  | none => ""
  | some resp =>
      match resp.error with
      | some e => e.code
      | none =>
          match resp.errors with
          | e :: _ => e.code
          | [] => ""

/-- HTTP status of an optional response (0 for nil, mirroring Go's zero
value when no response exists). -/
def statusOf : Option Response → Nat
  | none => 0
  | some r => r.statusCode

/-- Outcome of one `c.Post` call as seen by a caller: the `(*Response,
error)` pair. `err = none` means transport-level success. -/
structure PostResult where
  resp : Option Response
  err : Option GoError
  deriving DecidableEq

/-! ### Client state -/

/-- Mutable fields of `Client` the session logic touches: the token
cache, the current-user name, and the stored credentials. -/
structure ClientState where
  tokens : SMap
  loggedInUser : String
  loginUser : String
  loginPass : String
  deriving DecidableEq

/-! ### Token cache (tokens.go): extractToken and GetToken -/

/-- Model of `extractToken`: the response body's `query.tokens` object is
modelled directly as the map `rawTokens`; the token is read at the key
`strings.ToLower(tokenType) + "token"` and an empty/absent value is the
missing-token error. -/
def extractToken (rawTokens : SMap) (tokenType : String) : Except GoError String :=
  let tok := sget rawTokens (strLower tokenType ++ "token")
  if tok = "" then .error (.str ("missing " ++ tokenType ++ " token"))
  else .ok tok

/-- Parameter map of the token-fetch read request issued by `GetToken`. -/
def getTokenParams (tokenType : String) : SMap :=
  [("action", "query"), ("meta", "tokens"), ("type", tokenType)]

/-- Model of `GetToken`, executed sequentially (under sequential
execution `singleflight.Group.Do` simply runs its function, so the
in-flight registry adds nothing; the claim about concurrent callers is
handled separately). `fetchRaw` is the network's answer to the token
fetch: on transport success, the `query.tokens` object of the body.
Returns the result, the updated state, and the list of parameter maps of
the network requests issued. -/
def GetToken (st : ClientState) (tokenType : String)
    (fetchRaw : Except GoError SMap) :
    Except GoError String × ClientState × List SMap :=
  let cached := sget st.tokens tokenType
  if cached ≠ "" then (.ok cached, st, [])
  else
    -- Inside singleflight.Do: re-check the cache, then fetch.
    let cached2 := sget st.tokens tokenType
    if cached2 ≠ "" then (.ok cached2, st, [])
    else
      match fetchRaw with
      | .error e => (.error e, st, [getTokenParams tokenType])
      | .ok rawTokens =>
          match extractToken rawTokens tokenType with
          | .error e => (.error e, st, [getTokenParams tokenType])
          | .ok tok =>
              (.ok tok, { st with tokens := sset st.tokens tokenType tok },
                [getTokenParams tokenType])

/-- Model of `InvalidateToken`. -/
def InvalidateToken (st : ClientState) (tokenType : String) : ClientState :=
  { st with tokens := sdel st.tokens tokenType }

/-- Model of `InvalidateAllTokens`. -/
def InvalidateAllTokens (st : ClientState) : ClientState :=
  { st with tokens := [] }

/-! ### PostWithToken (tokens.go) -/

/-- Model of `PostWithTokenOptions`. Go's `Retry` is an `int`; only
`Retry > 0` overrides the client budget, so `Nat` with the same guard is
faithful for all values the guard accepts. -/
structure PostWithTokenOptions where
  tokenName : String := ""
  retryOpt : Nat := 0
  noCache : Bool := false

/-- Effective token field name after option handling. -/
def effTokenName (opt : Option PostWithTokenOptions) : String :=
  match opt with
  | some o => if o.tokenName ≠ "" then o.tokenName else "token"
  | none => "token"

/-- Effective retry budget after option handling. -/
def effRetry (tokenRetry : Nat) (opt : Option PostWithTokenOptions) : Nat :=
  match opt with
  | some o => if o.retryOpt > 0 then o.retryOpt else tokenRetry
  | none => tokenRetry

/-- Effective cache-bypass flag after option handling. -/
def effNoCache (opt : Option PostWithTokenOptions) : Bool :=
  match opt with
  | some o => o.noCache
  | none => false

/-- Result of the embedded `PostWithToken`: the returned `(*Response,
error)` pair, the client state afterwards, the parameter map of every
write request actually sent, the number of token network fetches issued,
and the caller's own parameter map after the call (Go passes the map by
reference; the code copies it into `p2` and writes only to the copy, so
nothing is ever applied to this component). -/
structure PWTResult where
  resp : Option Response
  err : Option GoError
  state : ClientState
  sent : List SMap
  fetches : Nat
  callerParams : SMap
  deriving DecidableEq

/-- Loop body of `PostWithToken`, recursing on the remaining number of
iterations (`fuel = retry - attempt`). `fetchRaws i` / `postRes i` are
the network's answers to the token fetch / write request of attempt `i`. -/
def pwtAux (tokenType tokenName : String)
    (fetchRaws : Nat → Except GoError SMap)
    (postRes : Nat → PostResult) (noCache : Bool) (p : SMap) :
    Nat → Nat → ClientState → SMap → Option GoError → PWTResult
  | 0, _, st, _, lastErr =>
      -- Loop exhausted: `token retry exhausted` wrapping the last failure.
      { resp := none,
        err := some (.wrap "token retry exhausted"
          (lastErr.getD (.str "token retry exhausted"))),
        state := st, sent := [], fetches := 0, callerParams := p }
  | fuel + 1, attempt, st, p2, _lastErr =>
      let st1 := if attempt > 0 || noCache then InvalidateToken st tokenType else st
      match GetToken st1 tokenType (fetchRaws attempt) with
      | (.error e, st2, tr) =>
          { resp := none, err := some e, state := st2, sent := [],
            fetches := tr.length, callerParams := p }
      | (.ok tok, st2, tr) =>
          let p2' := sset p2 tokenName tok
          let pr := postRes attempt
          match pr.err with
          | none =>
              let code := responseErrorCode pr.resp
              if isTokenErrorCode code then
                let tokenErr : GoError := .api
                  { code := code, message := "token error",
                    httpStatus := statusOf pr.resp, errs := [],
                    response := pr.resp }
                let r := pwtAux tokenType tokenName fetchRaws postRes noCache p
                  fuel (attempt + 1) st2 p2' (some tokenErr)
                { r with sent := p2' :: r.sent, fetches := tr.length + r.fetches }
              else
                { resp := pr.resp, err := none, state := st2, sent := [p2'],
                  fetches := tr.length, callerParams := p }
          | some e =>
              match isMWApiError e with
              | some me =>
                  if isTokenErrorCode me.code then
                    let r := pwtAux tokenType tokenName fetchRaws postRes noCache p
                      fuel (attempt + 1) st2 p2' (some e)
                    { r with sent := p2' :: r.sent, fetches := tr.length + r.fetches }
                  else
                    { resp := pr.resp, err := some e, state := st2,
                      sent := [p2'], fetches := tr.length, callerParams := p }
              | none =>
                  { resp := pr.resp, err := some e, state := st2,
                    sent := [p2'], fetches := tr.length, callerParams := p }

/-- Model of `PostWithToken`: resolve options, copy the caller's map into
`p2`, then run the bounded retry loop. -/
def PostWithToken (tokenRetry : Nat) (st : ClientState) (tokenType : String)
    (p : SMap) (opt : Option PostWithTokenOptions)
    (fetchRaws : Nat → Except GoError SMap)
    (postRes : Nat → PostResult) : PWTResult :=
  let tokenName := effTokenName opt
  let retry := effRetry tokenRetry opt
  let noCache := effNoCache opt
  -- p2 := fresh copy of p; every write below targets the copy.
  let p2 := p
  pwtAux tokenType tokenName fetchRaws postRes noCache p retry 0 st p2 none

/-- Classification of a write-attempt outcome as token-related, exactly
as the loop body of `PostWithToken` checks it: on transport success, a
token-error code in the envelope; on transport failure, a
`MediaWikiApiError` carrying a token-error code. -/
def outcomeTokenClassified (pr : PostResult) : Bool :=
  match pr.err with
  | none => isTokenErrorCode (responseErrorCode pr.resp)
  | some e =>
      match isMWApiError e with
      | some me => isTokenErrorCode me.code
      | none => false

/-- The token-related failure the loop records for an attempt whose
outcome is token-classified. -/
def tokenFailureOf (pr : PostResult) : GoError :=
  match pr.err with
  | some e => e
  | none => .api
      { code := responseErrorCode pr.resp, message := "token error",
        httpStatus := statusOf pr.resp, errs := [], response := pr.resp }

/-- A token fetch answer from which `GetToken` can produce a token. -/
def fetchOk (f : Except GoError SMap) (tokenType : String) : Bool :=
  match f with
  | .ok raw => !(sget raw (strLower tokenType ++ "token") = "")
  | .error _ => false

/-! ### Login / Logout (auth.go) -/

/-- Model of `LoginResult`. -/
structure LoginResult where
  result : String
  lgUserID : Int
  lgName : String
  reason : String
  deriving DecidableEq

/-- Outcome of the `action=login` POST of one attempt: a transport
error, a JSON-unmarshal failure of the body, or the parsed
`login` object. -/
inductive LoginPostOutcome where
  | postErr (e : GoError)
  | parseErr (e : GoError)
  | parsed (lr : LoginResult)
  deriving DecidableEq

/-- Parameter map sent by a login attempt. -/
def loginParams (user pass tok : String) : SMap :=
  [("action", "login"), ("lgname", user), ("lgpassword", pass), ("lgtoken", tok)]

/-- Loop body of `Login`, recursing on the remaining iterations
(`fuel = tokenRetry - attempt`). `fetchRaws i` answers the login-token
fetch of attempt `i`; `outcomes i` is the login POST outcome of attempt
`i`. Returns the `(*LoginResult, error)` pair and the state after. -/
def loginAux (user pass : String)
    (fetchRaws : Nat → Except GoError SMap)
    (outcomes : Nat → LoginPostOutcome) :
    Nat → Nat → ClientState → Option GoError →
      Option LoginResult × Option GoError × ClientState
  | 0, _, st, lastErr =>
      (none, some (.wrap "login retry exhausted"
        (lastErr.getD (.str "login retry exhausted"))), st)
  | fuel + 1, attempt, st, _lastErr =>
      -- Login token is sensitive to session state; drop any cached one.
      let st1 := InvalidateToken st "login"
      match GetToken st1 "login" (fetchRaws attempt) with
      | (.error e, st2, _) => (none, some e, st2)
      | (.ok _tok, st2, _) =>
          match outcomes attempt with
          | .postErr e =>
              match isMWApiError e with
              | some me =>
                  if isTokenErrorCode me.code then
                    loginAux user pass fetchRaws outcomes fuel (attempt + 1) st2 (some e)
                  else (none, some e, st2)
              | none => (none, some e, st2)
          | .parseErr e => (none, some e, st2)
          | .parsed lr =>
              if strLower lr.result = "success" then
                -- Store credentials and current-user, then invalidate all tokens.
                (some lr, none,
                  { st2 with loginUser := user, loginPass := pass,
                             loggedInUser := lr.lgName, tokens := [] })
              else if strLower lr.result = "needtoken" ∨ strLower lr.result = "wrongtoken" then
                loginAux user pass fetchRaws outcomes fuel (attempt + 1) st2
                  (some (.str ("login token error: " ++ lr.result)))
              else if lr.reason ≠ "" then
                (some lr, some (.str ("login failed: " ++ lr.result ++ " (" ++ lr.reason ++ ")")), st2)
              else
                (some lr, some (.str ("login failed: " ++ lr.result)), st2)

/-- Model of `Login`. -/
def Login (tokenRetry : Nat) (st : ClientState) (user pass : String)
    (fetchRaws : Nat → Except GoError SMap)
    (outcomes : Nat → LoginPostOutcome) :
    Option LoginResult × Option GoError × ClientState :=
  loginAux user pass fetchRaws outcomes tokenRetry 0 st none

/-- Model of `Logout`: a token-authenticated `action=logout` write; only
when it succeeds are credentials, current-user and the token cache
cleared. -/
def Logout (tokenRetry : Nat) (st : ClientState)
    (fetchRaws : Nat → Except GoError SMap)
    (postRes : Nat → PostResult) : Option GoError × ClientState :=
  let r := PostWithToken tokenRetry st "csrf" [("action", "logout")] none fetchRaws postRes
  match r.err with
  | some e => (some e, r.state)
  | none =>
      (none, { r.state with loggedInUser := "", loginUser := "",
                            loginPass := "", tokens := [] })

/-! ### Parameter normalization (params.go) -/

/-- A file attachment produced by normalization: field name and filename. -/
structure FileField where
  field : String
  filename : String
  deriving DecidableEq

/-- Model of `normalizedParams`. -/
structure NormalizedParams where
  values : Values
  files : List FileField
  deriving DecidableEq

/-- Caller-supplied values of the `map[string]any` shape, restricted to
the kinds `addAny` dispatches on. `goNil` is a `nil` value; `file`
stands for the `[]byte` / `File` / `io.Reader` cases (all become a file
field whose default filename is the parameter key, or the stream's own
name for an `*os.File`). Numeric kinds beyond `int` (int64, uints,
floats) follow the same decimal-string scheme and are not separately
modelled. -/
inductive ParamValue where
  | goNil
  | str (s : String)
  | boolean (b : Bool)
  | strList (xs : List String)
  | int (n : Int)
  | file (filename : Option String)
  deriving DecidableEq

/-- MediaWiki multi-value join with `|`. -/
def pipeJoin : List String → String
  | [] => ""
  | [x] => x
  | x :: rest => x ++ "|" ++ pipeJoin rest

/-- Model of `addAny`: per-value encoding of one `map[string]any` entry. -/
def addAny (np : NormalizedParams) (key : String) (val : ParamValue) : NormalizedParams :=
  match val with
  | .goNil => np
  | .str s => { np with values := vset np.values key s }
  | .boolean b =>
      if b then { np with values := vset np.values key "1" } else np
  | .strList xs =>
      if xs = [] then np
      else { np with values := vset np.values key (pipeJoin xs) }
  | .int n => { np with values := vset np.values key (toString n) }
  | .file fn =>
      { np with files := np.files ++ [{ field := key, filename := fn.getD key }] }

/-- The closed set of parameter-set shapes `normalizeParams` accepts.
`values` is the `url.Values` case (each key's values joined with `|`);
`strMap` is `map[string]string`; `anyMap` is `map[string]any`. The
struct case delegates to the external `go-querystring` encoder and then
behaves exactly like the `values` case, so it is subsumed by it; any
other dynamic type fails with `unsupported params type`, which cannot
arise for this closed model. -/
inductive Params where
  | goNone
  | values (v : Values)
  | strMap (m : SMap)
  | anyMap (m : List (String × ParamValue))
  deriving DecidableEq

/-- Per-shape field encoding of `normalizeParams`, before defaults. -/
def encodeShape : Params → NormalizedParams
  | .goNone => { values := [], files := [] }
  | .values v =>
      { values := v.foldl
          (fun acc e => if e.2 = [] then acc else vset acc e.1 (pipeJoin e.2)) [],
        files := [] }
  | .strMap m =>
      { values := m.foldl (fun acc e => vset acc e.1 e.2) [], files := [] }
  | .anyMap m => m.foldl (fun acc e => addAny acc e.1 e.2) { values := [], files := [] }

/-- Model of `setDefaultIfMissing`: apply the default when `Get` returns
the empty string (the key is absent, valueless, or set to `""`). -/
def setDefaultIfMissing (v : Values) (key value : String) : Values :=
  if vget v key = "" then vset v key value else v

/-- The four wire defaults applied after per-field encoding. -/
def applyDefaults (v : Values) : Values :=
  setDefaultIfMissing
    (setDefaultIfMissing
      (setDefaultIfMissing
        (setDefaultIfMissing v "action" "query")
        "format" "json")
      "formatversion" "2")
    "errorformat" "plaintext"

/-- Model of `normalizeParams`: encode the shape, then apply defaults. -/
def normalizeParams (p : Params) : NormalizedParams :=
  let np := encodeShape p
  { np with values := applyDefaults np.values }

/-! ### Request preparation and keep-login assertion injection (client.go) -/

/-- Whether `sub` is a prefix of `s`, over character lists. -/
def beginsWith : List Char → List Char → Bool
  | _, [] => true
  | [], _ :: _ => false
  | c :: cs, d :: ds => c = d && beginsWith cs ds

/-- Substring occurrence over character lists. -/
def containsChars : List Char → List Char → Bool
  | [], sub => sub.isEmpty
  | c :: rest, sub => beginsWith (c :: rest) sub || containsChars rest sub

/-- Model of `strings.Contains`. -/
def goContains (s sub : String) : Bool := containsChars s.data sub.data

/-- The keep-login injection step of `do`: after normalization, inject
`assertuser` with the current username unless keep-login is off, nobody
is logged in, the request is the login operation or a login-token fetch,
or `Get("assertuser")` is non-empty. -/
def injectAssert (keepLogin : Bool) (loggedInUser : String) (skipAssert : Bool)
    (v : Values) : Values :=
  let action := strLower (vget v "action")
  let meta := strLower (vget v "meta")
  let typ := strLower (vget v "type")
  let shouldSkip := skipAssert || action = "login" ||
    (action = "query" && meta = "tokens" && goContains typ "login")
  if keepLogin && !shouldSkip && loggedInUser ≠ "" && vget v "assertuser" = "" then
    vset v "assertuser" loggedInUser
  else v

/-- The prepared outgoing parameter set of `do`: normalization followed
by assertion injection. -/
def prepared (keepLogin : Bool) (loggedInUser : String) (skipAssert : Bool)
    (p : Params) : Values :=
  injectAssert keepLogin loggedInUser skipAssert (normalizeParams p).values

/-! ### Request transport: POST construction (client.go, buildRequest) -/

/-- Delete every key of `ks` from `base` (the `for k := range np.Values
\x7b baseQuery.Del(k) \x7d` loop). -/
def delKeys (base : Values) (ks : List String) : Values :=
  ks.foldl vdel base

/-- The outgoing POST request as far as field placement is concerned:
the final URL query and the body fields. For an urlencoded body the
fields are `np.Values`; for a multipart body each field is written once
with its first value, which coincides because every field holds exactly
one value after normalization. -/
structure BuiltPost where
  query : Values
  body : Values
  deriving DecidableEq

/-- Model of the POST branch of `buildRequest`: every key of the
outgoing body is removed from the endpoint's preset query, and the body
carries the normalized fields. -/
def buildPostRequest (endpointQuery : Values) (v : Values) : BuiltPost :=
  let q := if v ≠ [] then delKeys endpointQuery (vkeys v) else endpointQuery
  { query := q, body := v }

/-! ### The relogin-and-replay loop of `do` (client.go) -/

/-- Classification of a `doOnce` outcome as an assertion failure, as the
loop of `do` checks it: on transport success, an assert-failure code in
the envelope; on failure, a `MediaWikiApiError` with a non-empty
assert-failure code. -/
def outcomeAssertClassified (pr : PostResult) : Bool :=
  match pr.err with
  | none => isAssertUserFailedCode (responseErrorCode pr.resp)
  | some e =>
      match isMWApiError e with
      | some me => if me.code = "" then false else isAssertUserFailedCode me.code
      | none => false

/-- The assert-failure error the loop surfaces for a classified attempt:
the transport error itself, or a `MediaWikiApiError` built from the
envelope code. -/
def assertFailureOf (pr : PostResult) : GoError :=
  match pr.err with
  | some e => e
  | none => .api
      { code := responseErrorCode pr.resp, message := "assertuser failed",
        httpStatus := statusOf pr.resp, errs := [], response := pr.resp }

/-- Result of the embedded `do` loop: the returned pair, the number of
`doOnce` calls (attempts), the number of `Relogin` calls, and the
parameter set used by every attempt. -/
structure DoResult where
  resp : Option Response
  err : Option GoError
  attempts : Nat
  relogins : Nat
  sent : List Values
  deriving DecidableEq

/-- The relogin-and-replay loop of `do`, recursing on the remaining
iterations (`fuel = maxRelogin + 1 - attempt`). `np` is the prepared
parameter set, fixed before the loop and reused unchanged by every
attempt. `doOnceRes i` is the outcome of the i-th `doOnce`;
`reloginRes i` the outcome of the i-th `Relogin` (`none` = success).
Relogin's own state effects do not feed back into this loop, which
reads no client state. -/
def doLoopAux (np : Values) (doOnceRes : Nat → PostResult)
    (reloginRes : Nat → Option GoError) (maxRelogin : Nat) :
    Nat → Nat → Option GoError → DoResult
  | 0, _, lastErr =>
      -- Loop condition failed (attempt > maxRelogin); in the source this
      -- line is unreachable because the final iteration always returns.
      { resp := none, err := lastErr, attempts := 0, relogins := 0, sent := [] }
  | fuel + 1, attempt, _lastErr =>
      let pr := doOnceRes attempt
      match pr.err with
      | none =>
          let code := responseErrorCode pr.resp
          if isAssertUserFailedCode code ∧ attempt < maxRelogin then
            let lastErr' : GoError := .api
              { code := code, message := "assertuser failed",
                httpStatus := statusOf pr.resp, errs := [], response := pr.resp }
            match reloginRes attempt with
            | some e2 =>
                { resp := pr.resp, err := some (.join lastErr' e2),
                  attempts := 1, relogins := 1, sent := [np] }
            | none =>
                let r := doLoopAux np doOnceRes reloginRes maxRelogin
                  fuel (attempt + 1) (some lastErr')
                { r with attempts := r.attempts + 1, relogins := r.relogins + 1, sent := np :: r.sent }
          else if isAssertUserFailedCode code ∧ attempt = maxRelogin then
            { resp := pr.resp,
              err := some (.api
                { code := code, message := "assertuser failed",
                  httpStatus := statusOf pr.resp, errs := [], response := pr.resp }),
              attempts := 1, relogins := 0, sent := [np] }
          else
            { resp := pr.resp, err := none, attempts := 1, relogins := 0,
              sent := [np] }
      | some e =>
          match isMWApiError e with
          | some me =>
              if me.code = "" then
                { resp := pr.resp, err := some e, attempts := 1, relogins := 0,
                  sent := [np] }
              else if !isAssertUserFailedCode me.code then
                { resp := pr.resp, err := some e, attempts := 1, relogins := 0,
                  sent := [np] }
              else if attempt = maxRelogin then
                { resp := pr.resp, err := some e, attempts := 1, relogins := 0,
                  sent := [np] }
              else
                match reloginRes attempt with
                | some e2 =>
                    { resp := pr.resp, err := some (.join e e2),
                      attempts := 1, relogins := 1, sent := [np] }
                | none =>
                    let r := doLoopAux np doOnceRes reloginRes maxRelogin
                      fuel (attempt + 1) (some e)
                    { r with attempts := r.attempts + 1, relogins := r.relogins + 1, sent := np :: r.sent }
          | none =>
              { resp := pr.resp, err := some e, attempts := 1, relogins := 0,
                sent := [np] }

/-- Model of the retry portion of `do`: `maxRelogin` is the client's
relogin budget (0 when `skipRelogin`), and the loop runs attempts
`0 .. maxRelogin`. -/
def doLoop (maxRelogin : Nat) (np : Values) (doOnceRes : Nat → PostResult)
    (reloginRes : Nat → Option GoError) : DoResult :=
  doLoopAux np doOnceRes reloginRes maxRelogin (maxRelogin + 1) 0 none

/-- Model of `do` for the aspects the claims cover: prepare the
parameter set once (normalization plus assert injection), then run the
relogin-and-replay loop with it. -/
def doModel (keepLogin : Bool) (loggedInUser : String) (maxRelogin : Nat)
    (p : Params) (doOnceRes : Nat → PostResult)
    (reloginRes : Nat → Option GoError) : DoResult :=
  doLoop maxRelogin (prepared keepLogin loggedInUser false p) doOnceRes reloginRes

/-- The default value of each of the four canonical fields. -/
def defaultFor (key : String) : String :=
  if key = "action" then "query"
  else if key = "format" then "json"
  else if key = "formatversion" then "2"
  else "plaintext"

/-- The exemption test of the keep-login injection: the login operation
itself, or a token-fetch read whose requested kinds include `login`. -/
def assertExempt (v : Values) : Bool :=
  strLower (vget v "action") = "login" ||
    (strLower (vget v "action") = "query" && strLower (vget v "meta") = "tokens" &&
      goContains (strLower (vget v "type")) "login")

/-- A transport-successful response whose envelope carries `badtoken`
(used to instantiate theorems at concrete oracles). -/
def respBadtoken : Response :=
  { statusCode := 200, error := some { code := "badtoken", info := "bad", text := "" },
    errors := [] }

/-- The write outcome carrying `respBadtoken`. -/
def prBadtoken : PostResult := { resp := some respBadtoken, err := none }

/-- A plain successful response with an empty envelope. -/
def respOkPlain : Response := { statusCode := 200, error := none, errors := [] }

/-- The write outcome carrying `respOkPlain`. -/
def prOkPlain : PostResult := { resp := some respOkPlain, err := none }

/-- A transport-successful response whose envelope carries
`assertuserfailed`. -/
def respAssertFailed : Response :=
  { statusCode := 200,
    error := some { code := "assertuserfailed", info := "session expired", text := "" },
    errors := [] }

/-- The outcome carrying `respAssertFailed`. -/
def prAssertFailed : PostResult := { resp := some respAssertFailed, err := none }

/-! ## Theorems -/

theorem sget_sset_self (m : SMap) (k v : String) : sget (sset m k v) k = v := by
  induction m with
  | nil => simp [sset, sget]
  | cons e rest ih =>
      obtain ⟨k', v'⟩ := e
      by_cases h : k' = k <;> simp [sset, sget, h, ih]

theorem sget_sset_ne (m : SMap) (k k' v : String) (h : k' ≠ k) :
    sget (sset m k v) k' = sget m k' := by
  have hk : k ≠ k' := fun hh => h hh.symm
  induction m with
  | nil => simp [sset, sget, hk]
  | cons e rest ih =>
      obtain ⟨k0, v0⟩ := e
      by_cases h0 : k0 = k
      · subst h0
        simp [sset, sget, hk]
      · by_cases h1 : k0 = k' <;> simp [sset, sget, h0, h1, h, ih]

theorem sset_sset (m : SMap) (k a b : String) :
    sset (sset m k a) k b = sset m k b := by
  induction m with
  | nil => simp [sset]
  | cons e rest ih =>
      obtain ⟨k', v'⟩ := e
      by_cases h : k' = k <;> simp [sset, h, ih]

theorem sget_sdel_self (m : SMap) (k : String) : sget (sdel m k) k = "" := by
  induction m with
  | nil => simp [sdel, sget]
  | cons e rest ih =>
      obtain ⟨k', v'⟩ := e
      by_cases h : k' = k <;> simp [sdel, sget, h, ih]

theorem vget_vset_self (m : Values) (k v : String) : vget (vset m k v) k = v := by
  induction m with
  | nil => simp [vset, vget]
  | cons e rest ih =>
      obtain ⟨k', vs⟩ := e
      by_cases h : k' = k <;> simp [vset, vget, h, ih]

theorem vget_vset_ne (m : Values) (k k' v : String) (h : k' ≠ k) :
    vget (vset m k v) k' = vget m k' := by
  have hk : k ≠ k' := fun hh => h hh.symm
  induction m with
  | nil => simp [vset, vget, hk]
  | cons e rest ih =>
      obtain ⟨k0, vs0⟩ := e
      by_cases h0 : k0 = k
      · subst h0
        simp [vset, vget, hk]
      · by_cases h1 : k0 = k' <;> simp [vset, vget, h0, h1, h, ih]


theorem vget_setDefaultIfMissing_ne (v : Values) (k k' d : String) (h : k' ≠ k) :
    vget (setDefaultIfMissing v k d) k' = vget v k' := by
  unfold setDefaultIfMissing
  split
  · exact vget_vset_ne v k k' d h
  · rfl

theorem vget_setDefaultIfMissing_self (v : Values) (k d : String) :
    vget (setDefaultIfMissing v k d) k =
      if vget v k = "" then d else vget v k := by
  unfold setDefaultIfMissing
  split
  · simp [vget_vset_self, *]
  · simp [*]

theorem applyDefaults_get (v : Values) (key : String)
    (h : key = "action" ∨ key = "format" ∨ key = "formatversion" ∨ key = "errorformat") :
    vget (applyDefaults v) key =
      if vget v key = "" then defaultFor key else vget v key := by
  unfold applyDefaults
  rcases h with h | h | h | h <;> subst h <;>
    simp [vget_setDefaultIfMissing_ne, vget_setDefaultIfMissing_self, defaultFor]

theorem applyDefaults_get_other (v : Values) (key : String)
    (h1 : key ≠ "action") (h2 : key ≠ "format") (h3 : key ≠ "formatversion")
    (h4 : key ≠ "errorformat") :
    vget (applyDefaults v) key = vget v key := by
  unfold applyDefaults
  rw [vget_setDefaultIfMissing_ne _ _ _ _ h4, vget_setDefaultIfMissing_ne _ _ _ _ h3,
    vget_setDefaultIfMissing_ne _ _ _ _ h2, vget_setDefaultIfMissing_ne _ _ _ _ h1]

theorem normalizeParams_values (p : Params) :
    (normalizeParams p).values = applyDefaults (encodeShape p).values := by
  simp [normalizeParams]

/-- C2, counterexample: the claim says a caller-supplied value of any
kind is never overwritten by a default, but `setDefaultIfMissing` tests
`Get(key) == ""`, so a caller-supplied empty string — a field that is
present after normalization — is overwritten by the default. -/
theorem spec_C2_counterexample :
    "format" ∈ vkeys (encodeShape (.strMap [("format", "")])).values ∧
    vget (encodeShape (.strMap [("format", "")])).values "format" = "" ∧
    vget (normalizeParams (.strMap [("format", "")])).values "format" = "json" := by
  refine ⟨?_, rfl, rfl⟩
  simp [encodeShape, vkeys, vset]

/-- C2, amended: after per-field encoding, each of the four default
fields (action, format, formatversion, errorformat) is set to its
default exactly when its encoded value is absent or the empty string; a
caller-supplied non-empty value is never overwritten, and fields other
than the four are never touched by the defaulting step. -/
theorem spec_C2_defaults (p : Params) (key : String) :
    ((key = "action" ∨ key = "format" ∨ key = "formatversion" ∨ key = "errorformat") →
      (vget (encodeShape p).values key ≠ "" →
        vget (normalizeParams p).values key = vget (encodeShape p).values key) ∧
      (vget (encodeShape p).values key = "" →
        vget (normalizeParams p).values key = defaultFor key)) ∧
    ((key ≠ "action" ∧ key ≠ "format" ∧ key ≠ "formatversion" ∧ key ≠ "errorformat") →
      vget (normalizeParams p).values key = vget (encodeShape p).values key) := by
  constructor
  · intro h
    constructor
    · intro hne
      rw [normalizeParams_values, applyDefaults_get _ _ h, if_neg hne]
    · intro he
      rw [normalizeParams_values, applyDefaults_get _ _ h, if_pos he]
  · rintro ⟨h1, h2, h3, h4⟩
    rw [normalizeParams_values]
    exact applyDefaults_get_other _ _ h1 h2 h3 h4

/-- C2, witness: a caller-supplied `action=edit` survives the defaulting
step while a missing `format` receives its default. -/
theorem spec_C2_witness :
    vget (normalizeParams (.strMap [("action", "edit")])).values "action" = "edit" ∧
    vget (normalizeParams (.strMap [("action", "edit")])).values "format" = "json" := by
  constructor
  · exact ((spec_C2_defaults (.strMap [("action", "edit")]) "action").1
      (Or.inl rfl)).1 (by intro h; simp [encodeShape, vget, vset] at h)
  · exact ((spec_C2_defaults (.strMap [("action", "edit")]) "format").1
      (Or.inr (Or.inl rfl))).2 (by rfl)

theorem vkeys_nil : vkeys ([] : Values) = [] := rfl

theorem vkeys_cons (k0 : String) (vs0 : List String) (rest : Values) :
    vkeys ((k0, vs0) :: rest) = k0 :: vkeys rest := rfl

theorem not_mem_vkeys_vdel_self (m : Values) (k : String) :
    k ∉ vkeys (vdel m k) := by
  induction m with
  | nil => simp [vdel, vkeys_nil]
  | cons e rest ih =>
      obtain ⟨k0, vs0⟩ := e
      by_cases h : k0 = k
      · simpa [vdel, h] using ih
      · simp [vdel, h, vkeys_cons]
        exact ⟨fun hh => h hh.symm, ih⟩

theorem not_mem_vkeys_vdel (m : Values) (k k' : String) (h : k ∉ vkeys m) :
    k ∉ vkeys (vdel m k') := by
  induction m with
  | nil => simp [vdel, vkeys_nil]
  | cons e rest ih =>
      obtain ⟨k0, vs0⟩ := e
      rw [vkeys_cons] at h
      simp at h
      by_cases h0 : k0 = k'
      · simp [vdel, h0]
        exact ih h.2
      · simp [vdel, h0, vkeys_cons]
        exact ⟨h.1, ih h.2⟩

theorem not_mem_vkeys_delKeys_of_not_mem (ks : List String) (b : Values)
    (k : String) (h : k ∉ vkeys b) : k ∉ vkeys (delKeys b ks) := by
  induction ks generalizing b with
  | nil => exact h
  | cons r rs ih => exact ih (vdel b r) (not_mem_vkeys_vdel b k r h)

theorem not_mem_vkeys_delKeys (ks : List String) (base : Values) (k : String)
    (h : k ∈ ks) : k ∉ vkeys (delKeys base ks) := by
  induction ks generalizing base with
  | nil => simp at h
  | cons k0 rest ih =>
      rcases List.mem_cons.mp h with h0 | h0
      · subst h0
        exact not_mem_vkeys_delKeys_of_not_mem rest (vdel base k) k
          (not_mem_vkeys_vdel_self base k)
      · exact ih _ h0

/-- C8: in the POST branch of `buildRequest`, any key present in the
outgoing body is removed from the endpoint's preset query, so the field
is transmitted exactly once — in the body, with the body's value. -/
theorem spec_C8_body_wins (base v : Values) (k : String)
    (hnd : (vkeys v).Nodup) (hk : k ∈ vkeys v) :
    k ∉ vkeys (buildPostRequest base v).query ∧
    (vkeys (buildPostRequest base v).query).count k = 0 ∧
    (vkeys (buildPostRequest base v).body).count k = 1 ∧
    vget (buildPostRequest base v).body k = vget v k := by
  have hne : v ≠ [] := by
    intro hv
    subst hv
    simp [vkeys] at hk
  have hq : (buildPostRequest base v).query = delKeys base (vkeys v) := by
    simp [buildPostRequest, hne]
  have hnm : k ∉ vkeys (buildPostRequest base v).query := by
    rw [hq]
    exact not_mem_vkeys_delKeys (vkeys v) base k hk
  refine ⟨hnm, List.count_eq_zero.mpr hnm, ?_, rfl⟩
  exact List.count_eq_one_of_mem hnd hk

/-- C8, witness: the preset query key `action` collides with the body
and is deleted from the query; the body carries the normalized value. -/
theorem spec_C8_witness :
    "action" ∉ vkeys (buildPostRequest [("action", ["old"]), ("x", ["1"])]
      [("action", ["edit"]), ("title", ["T"])]).query ∧
    (vkeys (buildPostRequest [("action", ["old"]), ("x", ["1"])]
      [("action", ["edit"]), ("title", ["T"])]).body).count "action" = 1 ∧
    vget (buildPostRequest [("action", ["old"]), ("x", ["1"])]
      [("action", ["edit"]), ("title", ["T"])]).body "action" = "edit" := by
  have h := spec_C8_body_wins [("action", ["old"]), ("x", ["1"])]
    [("action", ["edit"]), ("title", ["T"])] "action"
    (by simp [vkeys]) (by simp [vkeys])
  exact ⟨h.1, h.2.2.1, h.2.2.2.trans (by rfl)⟩

/-- C9, counterexample: the claim says the assertion field is never
injected when the caller already supplied it, but the code tests
`Get("assertuser") == ""`, so a caller-supplied empty `assertuser` —
present in the normalized request — is overwritten with the current
username. -/
theorem spec_C9_counterexample :
    "assertuser" ∈ vkeys (normalizeParams (.strMap [("action", "parse"), ("assertuser", "")])).values ∧
    vget (normalizeParams (.strMap [("action", "parse"), ("assertuser", "")])).values "assertuser" = "" ∧
    vget (prepared true "UserA" false (.strMap [("action", "parse"), ("assertuser", "")])) "assertuser" = "UserA" := by
  refine ⟨?_, rfl, rfl⟩
  rw [normalizeParams_values]
  simp [encodeShape, applyDefaults, setDefaultIfMissing, vget, vset, vkeys]

/-- C9, amended: when keep-login is enabled and a user is logged in,
an outgoing request receives `assertuser = current username` exactly
when the request is not the login operation or a login-kind token fetch
and the caller-supplied `assertuser` is absent or empty; a
caller-supplied non-empty value is never overwritten (the request is
passed through unchanged), and the two exempt request shapes are never
injected into. -/
theorem spec_C9_assert_injection (keepLogin : Bool) (user : String)
    (skipAssert : Bool) (v : Values) :
    (vget v "assertuser" ≠ "" → injectAssert keepLogin user skipAssert v = v) ∧
    (assertExempt v = true → injectAssert keepLogin user skipAssert v = v) ∧
    (keepLogin = false ∨ user = "" → injectAssert keepLogin user skipAssert v = v) ∧
    (keepLogin = true → user ≠ "" → skipAssert = false → assertExempt v = false →
      vget v "assertuser" = "" →
      vget (injectAssert keepLogin user skipAssert v) "assertuser" = user ∧
      ∀ k, k ≠ "assertuser" →
        vget (injectAssert keepLogin user skipAssert v) k = vget v k) := by
  refine ⟨?_, ?_, ?_, ?_⟩
  · intro h
    simp [injectAssert, h]
  · intro h
    simp only [assertExempt, Bool.or_eq_true, Bool.and_eq_true] at h
    rcases h with h | ⟨⟨h1, h2⟩, h3⟩
    · simp [injectAssert, h]
    · simp [injectAssert, h1, h2, h3]
  · rintro (h | h) <;> simp [injectAssert, h]
  · intro hk hu hs hex ha
    subst hk hs
    simp only [assertExempt] at hex
    have hinj : injectAssert true user false v = vset v "assertuser" user := by
      simp [injectAssert, hex, ha, hu]
    rw [hinj]
    exact ⟨vget_vset_self v "assertuser" user,
      fun k hk2 => vget_vset_ne v "assertuser" k user hk2⟩

/-- C9, witness: an exempt login request is passed through unchanged,
and a plain query with no caller-supplied assertion gets the current
username injected. -/
theorem spec_C9_witness :
    injectAssert true "UserA" false [("action", ["login"])] = [("action", ["login"])] ∧
    vget (injectAssert true "UserA" false [("action", ["query"])]) "assertuser" = "UserA" := by
  constructor
  · exact (spec_C9_assert_injection true "UserA" false [("action", ["login"])]).2.1 (by decide)
  · exact (((spec_C9_assert_injection true "UserA" false [("action", ["query"])]).2.2.2
      rfl (by simp) rfl (by decide) (by rfl))).1

/-- C6: `GetToken(kind)` returns the cached value with no network fetch
whenever one is present; otherwise it issues one read request naming the
requested kind (`action=query, meta=tokens, type=kind`), extracts the
token from the `query.tokens` field keyed by the lowercased kind plus
the suffix `token`, fails with the missing-token error when that field
is absent or empty, and on success caches the value so that a second
`GetToken` for the same kind performs no fetch. -/
theorem spec_C6_getToken (st : ClientState) (tt : String)
    (f : Except GoError SMap) :
    (sget st.tokens tt ≠ "" →
      GetToken st tt f = (.ok (sget st.tokens tt), st, [])) ∧
    (sget st.tokens tt = "" →
      (GetToken st tt f).2.2 = [getTokenParams tt] ∧
      sget (getTokenParams tt) "action" = "query" ∧
      sget (getTokenParams tt) "meta" = "tokens" ∧
      sget (getTokenParams tt) "type" = tt ∧
      (∀ raw, f = .ok raw →
        (sget raw (strLower tt ++ "token") = "" →
          (GetToken st tt f).1 = .error (.str ("missing " ++ tt ++ " token"))) ∧
        (sget raw (strLower tt ++ "token") ≠ "" →
          GetToken st tt f =
            (.ok (sget raw (strLower tt ++ "token")),
              { st with tokens := sset st.tokens tt (sget raw (strLower tt ++ "token")) },
              [getTokenParams tt]) ∧
          ∀ f', GetToken (GetToken st tt f).2.1 tt f' =
            (.ok (sget raw (strLower tt ++ "token")), (GetToken st tt f).2.1, []))) ∧
      (∀ e, f = .error e → (GetToken st tt f).1 = .error e)) := by
  constructor
  · intro h
    simp [GetToken, h]
  · intro h
    refine ⟨?_, ?_, ?_, ?_, ?_, ?_⟩
    · rcases f with e | raw
      · simp [GetToken, h]
      · simp only [GetToken, h]
        cases hE : extractToken raw tt with
        | error e => simp [h, hE]
        | ok tok => simp [h, hE]
    · simp [getTokenParams, sget]
    · simp [getTokenParams, sget]
    · simp [getTokenParams, sget]
    · rintro raw rfl
      constructor
      · intro hraw
        simp [GetToken, h, extractToken, hraw]
      · intro hraw
        have hE : extractToken raw tt = .ok (sget raw (strLower tt ++ "token")) := by
          simp [extractToken, hraw]
        have hGT : GetToken st tt (.ok raw) =
            (.ok (sget raw (strLower tt ++ "token")),
              { st with tokens := sset st.tokens tt (sget raw (strLower tt ++ "token")) },
              [getTokenParams tt]) := by
          simp [GetToken, h, hE]
        refine ⟨hGT, ?_⟩
        intro f'
        rw [hGT]
        simp [GetToken, sget_sset_self, hraw]
    · rintro e rfl
      simp [GetToken, h]

/-- C6, witness: with an empty cache a fetch is issued and the extracted
token is cached; refetching returns the cached token with no fetch. -/
theorem spec_C6_witness :
    GetToken { tokens := [], loggedInUser := "", loginUser := "", loginPass := "" }
      "csrf" (.ok [("csrftoken", "T1")]) =
      (.ok "T1",
        { tokens := [("csrf", "T1")], loggedInUser := "", loginUser := "", loginPass := "" },
        [getTokenParams "csrf"]) ∧
    GetToken { tokens := [("csrf", "T1")], loggedInUser := "", loginUser := "", loginPass := "" }
      "csrf" (.ok [("csrftoken", "T2")]) =
      (.ok "T1",
        { tokens := [("csrf", "T1")], loggedInUser := "", loginUser := "", loginPass := "" },
        []) := by
  constructor
  · have h := (((spec_C6_getToken
      { tokens := [], loggedInUser := "", loginUser := "", loginPass := "" }
      "csrf" (.ok [("csrftoken", "T1")])).2 (by rfl)).2.2.2.2.1
      [("csrftoken", "T1")] rfl).2 (by decide)
    exact h.1
  · have h := (spec_C6_getToken
      { tokens := [("csrf", "T1")], loggedInUser := "", loginUser := "", loginPass := "" }
      "csrf" (.ok [("csrftoken", "T2")])).1 (by decide)
    exact h

theorem GetToken_state_shape (st : ClientState) (tt : String)
    (f : Except GoError SMap) :
    ∃ tks, (GetToken st tt f).2.1 = { st with tokens := tks } := by
  unfold GetToken
  by_cases h : sget st.tokens tt ≠ ""
  · exact ⟨st.tokens, by simp [h]⟩
  · rcases f with e | raw
    · exact ⟨st.tokens, by simp [h]⟩
    · cases hE : extractToken raw tt with
      | error e => exact ⟨st.tokens, by simp [h, hE]⟩
      | ok tok => exact ⟨sset st.tokens tt tok, by simp [h, hE]⟩

theorem pwtAux_state_shape (tt tn : String) (fr : Nat → Except GoError SMap)
    (prs : Nat → PostResult) (nc : Bool) (p : SMap) :
    ∀ fuel attempt st p2 le,
      ∃ tks, (pwtAux tt tn fr prs nc p fuel attempt st p2 le).state =
        { st with tokens := tks } := by
  intro fuel
  induction fuel with
  | zero =>
      intro attempt st p2 le
      exact ⟨st.tokens, rfl⟩
  | succ fuel ih =>
      intro attempt st p2 le
      set st1 := if attempt > 0 || nc then InvalidateToken st tt else st with hst1
      have hshape1 : ∃ tks1, st1 = { st with tokens := tks1 } := by
        rw [hst1]
        split
        · exact ⟨sdel st.tokens tt, rfl⟩
        · exact ⟨st.tokens, rfl⟩
      obtain ⟨tks1, hs1⟩ := hshape1
      obtain ⟨tks2, hs2⟩ := GetToken_state_shape st1 tt (fr attempt)
      rcases hGT : GetToken st1 tt (fr attempt) with ⟨res, st2, tr⟩
      have hst2 : st2 = { st with tokens := tks2 } := by
        have := hs2
        rw [hGT] at this
        simpa [hs1] using this
      cases res with
      | error e =>
          refine ⟨tks2, ?_⟩
          simp only [pwtAux, hGT]
          exact hst2
      | ok tok =>
          rcases hpr : (prs attempt).err with _ | e
          · by_cases htok : isTokenErrorCode (responseErrorCode (prs attempt).resp)
            · obtain ⟨tks3, hs3⟩ := ih (attempt + 1) st2 (sset p2 tn tok) _
              refine ⟨tks3, ?_⟩
              simp only [pwtAux, hGT, hpr, htok, if_true]
              rw [hs3, hst2]
            · refine ⟨tks2, ?_⟩
              simp only [pwtAux, hGT, hpr, htok, if_false]
              exact hst2
          · rcases hme : isMWApiError e with _ | me
            · refine ⟨tks2, ?_⟩
              simp only [pwtAux, hGT, hpr, hme]
              exact hst2
            · by_cases htok : isTokenErrorCode me.code
              · obtain ⟨tks3, hs3⟩ := ih (attempt + 1) st2 (sset p2 tn tok) _
                refine ⟨tks3, ?_⟩
                simp only [pwtAux, hGT, hpr, hme, htok, if_true]
                rw [hs3, hst2]
              · refine ⟨tks2, ?_⟩
                simp only [pwtAux, hGT, hpr, hme, htok, if_false]
                exact hst2

/-- C1, counterexample: the claim says Logout clears credentials,
current-user and the token cache regardless of its error value, but the
source returns the error of the remote logout write before any clearing,
so after a failing Logout (here: a cancellation failure of the write)
the credentials, current-user and cached token are all still present. -/
theorem spec_C1_counterexample :
    (Logout 3
      { tokens := [("csrf", "TOK")], loggedInUser := "UserA",
        loginUser := "UserA", loginPass := "pw" }
      (fun _ => .ok [("csrftoken", "T2")])
      (fun _ => { resp := none, err := some .canceled })).1 = some .canceled ∧
    (Logout 3
      { tokens := [("csrf", "TOK")], loggedInUser := "UserA",
        loginUser := "UserA", loginPass := "pw" }
      (fun _ => .ok [("csrftoken", "T2")])
      (fun _ => { resp := none, err := some .canceled })).2 =
      { tokens := [("csrf", "TOK")], loggedInUser := "UserA",
        loginUser := "UserA", loginPass := "pw" } := by
  constructor <;> rfl

/-- C1, amended: Logout clears the stored credentials, the current-user
name and the entire token cache exactly when the remote logout write
succeeds; when the write fails, the error is returned and the stored
credentials and current-user are left unchanged (only the token cache
may have been modified by the write's token handling). -/
theorem spec_C1_logout (tokenRetry : Nat) (st : ClientState)
    (fr : Nat → Except GoError SMap) (prs : Nat → PostResult) :
    ((Logout tokenRetry st fr prs).1 = none →
      (Logout tokenRetry st fr prs).2.loggedInUser = "" ∧
      (Logout tokenRetry st fr prs).2.loginUser = "" ∧
      (Logout tokenRetry st fr prs).2.loginPass = "" ∧
      (Logout tokenRetry st fr prs).2.tokens = []) ∧
    (∀ e, (Logout tokenRetry st fr prs).1 = some e →
      (Logout tokenRetry st fr prs).2.loggedInUser = st.loggedInUser ∧
      (Logout tokenRetry st fr prs).2.loginUser = st.loginUser ∧
      (Logout tokenRetry st fr prs).2.loginPass = st.loginPass) := by
  obtain ⟨tks, hshape⟩ := pwtAux_state_shape "csrf" "token" fr prs false
    [("action", "logout")] tokenRetry 0 st [("action", "logout")] none
  unfold Logout PostWithToken
  rcases herr : (pwtAux "csrf" "token" fr prs false [("action", "logout")]
      tokenRetry 0 st [("action", "logout")] none).err with _ | e
  · constructor
    · intro _
      simp only [effTokenName, effRetry, effNoCache, herr]
      simp
    · intro e he
      simp only [effTokenName, effRetry, effNoCache, herr] at he
      exact absurd he (by simp)
  · constructor
    · intro he
      simp only [effTokenName, effRetry, effNoCache, herr] at he
      exact absurd he (by simp)
    · intro e2 _
      simp only [effTokenName, effRetry, effNoCache, herr]
      rw [hshape]
      exact ⟨rfl, rfl, rfl⟩

/-- C1, witness: a Logout whose remote write succeeds clears the
credentials and the token cache; applying the amended theorem at a
concrete succeeding oracle. -/
theorem spec_C1_witness :
    (Logout 3
      { tokens := [("csrf", "TOK")], loggedInUser := "UserA",
        loginUser := "UserA", loginPass := "pw" }
      (fun _ => .ok [("csrftoken", "T2")])
      (fun _ => { resp := some { statusCode := 200, error := none, errors := [] },
                  err := none })).2.loggedInUser = "" ∧
    (Logout 3
      { tokens := [("csrf", "TOK")], loggedInUser := "UserA",
        loginUser := "UserA", loginPass := "pw" }
      (fun _ => .ok [("csrftoken", "T2")])
      (fun _ => { resp := some { statusCode := 200, error := none, errors := [] },
                  err := none })).2.tokens = [] := by
  have h := (spec_C1_logout 3
    { tokens := [("csrf", "TOK")], loggedInUser := "UserA",
      loginUser := "UserA", loginPass := "pw" }
    (fun _ => .ok [("csrftoken", "T2")])
    (fun _ => { resp := some { statusCode := 200, error := none, errors := [] },
                err := none })).1 (by rfl)
  exact ⟨h.1, h.2.2.2⟩

theorem loginAux_shape (u pw : String) (fr : Nat → Except GoError SMap)
    (oc : Nat → LoginPostOutcome) :
    ∀ fuel attempt st le,
      ((loginAux u pw fr oc fuel attempt st le).2.1 = none →
        ∃ lr, (loginAux u pw fr oc fuel attempt st le).1 = some lr ∧
          strLower lr.result = "success" ∧
          (loginAux u pw fr oc fuel attempt st le).2.2 =
            { tokens := [], loggedInUser := lr.lgName, loginUser := u, loginPass := pw }) ∧
      (∀ e, (loginAux u pw fr oc fuel attempt st le).2.1 = some e →
        ∃ tks, (loginAux u pw fr oc fuel attempt st le).2.2 =
          { st with tokens := tks }) := by
  intro fuel
  induction fuel with
  | zero =>
      intro attempt st le
      constructor
      · intro h
        simp [loginAux] at h
      · intro e _
        exact ⟨st.tokens, rfl⟩
  | succ fuel ih =>
      intro attempt st le
      obtain ⟨tks1, hs1⟩ := GetToken_state_shape (InvalidateToken st "login")
        "login" (fr attempt)
      rcases hGT : GetToken (InvalidateToken st "login") "login" (fr attempt)
        with ⟨res, st2, tr⟩
      have hst2 : st2 = { st with tokens := tks1 } := by
        have := hs1
        rw [hGT] at this
        simpa [InvalidateToken] using this
      cases res with
      | error e =>
          constructor
          · intro h
            simp only [loginAux, hGT] at h
            simp at h
          · intro e2 _
            refine ⟨tks1, ?_⟩
            simp only [loginAux, hGT]
            exact hst2
      | ok tok =>
          rcases hoc : oc attempt with e | e | lr
          · rcases hme : isMWApiError e with _ | me
            · constructor
              · intro h
                simp only [loginAux, hGT, hoc, hme] at h
                simp at h
              · intro e2 _
                refine ⟨tks1, ?_⟩
                simp only [loginAux, hGT, hoc, hme]
                exact hst2
            · by_cases htok : isTokenErrorCode me.code
              · have ihr := ih (attempt + 1) st2 (some e)
                constructor
                · intro h
                  simp only [loginAux, hGT, hoc, hme, htok, if_true] at h ⊢
                  obtain ⟨lr, h1, h2, h3⟩ := ihr.1 h
                  exact ⟨lr, h1, h2, h3⟩
                · intro e2 h
                  simp only [loginAux, hGT, hoc, hme, htok, if_true] at h ⊢
                  obtain ⟨tks2, h2⟩ := ihr.2 e2 h
                  rw [h2, hst2]
                  exact ⟨tks2, rfl⟩
              · constructor
                · intro h
                  simp only [loginAux, hGT, hoc, hme, htok, if_false] at h
                  simp at h
                · intro e2 _
                  refine ⟨tks1, ?_⟩
                  simp only [loginAux, hGT, hoc, hme, htok, if_false]
                  exact hst2
          · constructor
            · intro h
              simp only [loginAux, hGT, hoc] at h
              simp at h
            · intro e2 _
              refine ⟨tks1, ?_⟩
              simp only [loginAux, hGT, hoc]
              exact hst2
          · by_cases hs : strLower lr.result = "success"
            · constructor
              · intro _
                exact ⟨lr, by simp only [loginAux, hGT, hoc, hs, if_true], hs,
                  by simp only [loginAux, hGT, hoc, hs, if_true]⟩
              · intro e2 h
                simp only [loginAux, hGT, hoc, hs, if_true] at h
                simp at h
            · by_cases hnt : strLower lr.result = "needtoken" ∨ strLower lr.result = "wrongtoken"
              · have ihr := ih (attempt + 1) st2
                  (some (.str ("login token error: " ++ lr.result)))
                constructor
                · intro h
                  simp only [loginAux, hGT, hoc, hs, if_false, hnt, if_true] at h ⊢
                  obtain ⟨lr2, h1, h2, h3⟩ := ihr.1 h
                  exact ⟨lr2, h1, h2, h3⟩
                · intro e2 h
                  simp only [loginAux, hGT, hoc, hs, if_false, hnt, if_true] at h ⊢
                  obtain ⟨tks2, h2⟩ := ihr.2 e2 h
                  rw [h2, hst2]
                  exact ⟨tks2, rfl⟩
              · constructor
                · intro h
                  simp only [loginAux, hGT, hoc, hs, if_false, hnt] at h
                  split at h <;> simp at h
                · intro e2 _
                  refine ⟨tks1, ?_⟩
                  simp only [loginAux, hGT, hoc, hs, if_false, hnt]
                  split <;> exact hst2

/-- C5: stored credentials and the current-user name are set only by a
Login whose result is the success literal (compared case-insensitively)
and cleared only by Logout: a successful Login stores exactly the given
credentials, the returned username, and an empty token cache; a failed
Login, any GetToken, any PostWithToken, and a failed Logout leave the
credentials and current-user unchanged; a successful Logout clears
them. -/
theorem spec_C5_credentials :
    (∀ tokenRetry st u pw fr oc,
      ((Login tokenRetry st u pw fr oc).2.1 = none →
        ∃ lr, (Login tokenRetry st u pw fr oc).1 = some lr ∧
          strLower lr.result = "success" ∧
          (Login tokenRetry st u pw fr oc).2.2 =
            { tokens := [], loggedInUser := lr.lgName, loginUser := u, loginPass := pw }) ∧
      (∀ e, (Login tokenRetry st u pw fr oc).2.1 = some e →
        (Login tokenRetry st u pw fr oc).2.2.loggedInUser = st.loggedInUser ∧
        (Login tokenRetry st u pw fr oc).2.2.loginUser = st.loginUser ∧
        (Login tokenRetry st u pw fr oc).2.2.loginPass = st.loginPass)) ∧
    (∀ st tt f,
      (GetToken st tt f).2.1.loggedInUser = st.loggedInUser ∧
      (GetToken st tt f).2.1.loginUser = st.loginUser ∧
      (GetToken st tt f).2.1.loginPass = st.loginPass) ∧
    (∀ tokenRetry st tt p opt fr prs,
      (PostWithToken tokenRetry st tt p opt fr prs).state.loggedInUser = st.loggedInUser ∧
      (PostWithToken tokenRetry st tt p opt fr prs).state.loginUser = st.loginUser ∧
      (PostWithToken tokenRetry st tt p opt fr prs).state.loginPass = st.loginPass) ∧
    (∀ tokenRetry st fr prs, (Logout tokenRetry st fr prs).1 = none →
      (Logout tokenRetry st fr prs).2.loggedInUser = "" ∧
      (Logout tokenRetry st fr prs).2.loginUser = "" ∧
      (Logout tokenRetry st fr prs).2.loginPass = "") := by
  refine ⟨?_, ?_, ?_, ?_⟩
  · intro tokenRetry st u pw fr oc
    have h := loginAux_shape u pw fr oc tokenRetry 0 st none
    constructor
    · intro he
      exact h.1 he
    · intro e he
      obtain ⟨tks, h2⟩ := h.2 e he
      show (loginAux u pw fr oc tokenRetry 0 st none).2.2.loggedInUser = st.loggedInUser ∧
        (loginAux u pw fr oc tokenRetry 0 st none).2.2.loginUser = st.loginUser ∧
        (loginAux u pw fr oc tokenRetry 0 st none).2.2.loginPass = st.loginPass
      rw [h2]
      exact ⟨rfl, rfl, rfl⟩
  · intro st tt f
    obtain ⟨tks, h⟩ := GetToken_state_shape st tt f
    rw [h]
    exact ⟨rfl, rfl, rfl⟩
  · intro tokenRetry st tt p opt fr prs
    obtain ⟨tks, h⟩ := pwtAux_state_shape tt (effTokenName opt) fr prs
      (effNoCache opt) p (effRetry tokenRetry opt) 0 st p none
    show (pwtAux tt (effTokenName opt) fr prs (effNoCache opt) p
        (effRetry tokenRetry opt) 0 st p none).state.loggedInUser = st.loggedInUser ∧
      (pwtAux tt (effTokenName opt) fr prs (effNoCache opt) p
        (effRetry tokenRetry opt) 0 st p none).state.loginUser = st.loginUser ∧
      (pwtAux tt (effTokenName opt) fr prs (effNoCache opt) p
        (effRetry tokenRetry opt) 0 st p none).state.loginPass = st.loginPass
    rw [h]
    exact ⟨rfl, rfl, rfl⟩
  · intro tokenRetry st fr prs he
    unfold Logout at he ⊢
    rcases herr : (pwtAux "csrf" "token" fr prs false [("action", "logout")]
        tokenRetry 0 st [("action", "logout")] none).err with _ | e
    · simp only [PostWithToken, effTokenName, effRetry, effNoCache, herr]
      simp
    · simp only [PostWithToken, effTokenName, effRetry, effNoCache, herr] at he
      simp at he

/-- C5, witness: a concrete Login whose first attempt parses the
literal `Success` stores the credentials and empties the token cache. -/
theorem spec_C5_witness :
    (Login 3
      { tokens := [("csrf", "OLD")], loggedInUser := "", loginUser := "", loginPass := "" }
      "UserA" "pw" (fun _ => .ok [("logintoken", "LT")])
      (fun _ => .parsed { result := "Success", lgUserID := 1, lgName := "UserA", reason := "" })).2.2 =
      { tokens := [], loggedInUser := "UserA", loginUser := "UserA", loginPass := "pw" } := by
  have h := ((spec_C5_credentials.1 3
    { tokens := [("csrf", "OLD")], loggedInUser := "", loginUser := "", loginPass := "" }
    "UserA" "pw" (fun _ => .ok [("logintoken", "LT")])
    (fun _ => .parsed { result := "Success", lgUserID := 1, lgName := "UserA", reason := "" })).1
    (by rfl))
  obtain ⟨lr, h1, _, h3⟩ := h
  have hlr : lr = { result := "Success", lgUserID := 1, lgName := "UserA", reason := "" } := by
    have : (Login 3
      { tokens := [("csrf", "OLD")], loggedInUser := "", loginUser := "", loginPass := "" }
      "UserA" "pw" (fun _ => .ok [("logintoken", "LT")])
      (fun _ => .parsed { result := "Success", lgUserID := 1, lgName := "UserA", reason := "" })).1 =
        some { result := "Success", lgUserID := 1, lgName := "UserA", reason := "" } := by rfl
    have h4 := this.symm.trans h1
    exact (Option.some_inj.mp h4).symm
  rw [h3, hlr]

theorem GetToken_ok_of_fetchOk (st : ClientState) (tt : String)
    (f : Except GoError SMap) (h : fetchOk f tt = true) :
    ∃ tok st2 tr, GetToken st tt f = (.ok tok, st2, tr) := by
  by_cases hc : sget st.tokens tt ≠ ""
  · exact ⟨sget st.tokens tt, st, [], by simp [GetToken, hc]⟩
  · rcases f with e | raw
    · simp [fetchOk] at h
    · have hraw : ¬sget raw (strLower tt ++ "token") = "" := by
        simpa [fetchOk] using h
      have hE : extractToken raw tt = .ok (sget raw (strLower tt ++ "token")) := by
        simp [extractToken, hraw]
      exact ⟨sget raw (strLower tt ++ "token"),
        { st with tokens := sset st.tokens tt (sget raw (strLower tt ++ "token")) },
        [getTokenParams tt], by simp [GetToken, hc, hE]⟩

theorem pwtAux_sent_length_le (tt tn : String) (fr : Nat → Except GoError SMap)
    (prs : Nat → PostResult) (nc : Bool) (p : SMap) :
    ∀ fuel attempt st p2 le,
      (pwtAux tt tn fr prs nc p fuel attempt st p2 le).sent.length ≤ fuel := by
  intro fuel
  induction fuel with
  | zero => intro attempt st p2 le; simp [pwtAux]
  | succ fuel ih =>
      intro attempt st p2 le
      rcases hGT : GetToken (if attempt > 0 || nc then InvalidateToken st tt else st)
        tt (fr attempt) with ⟨res, st2, tr⟩
      cases res with
      | error e =>
          simp only [pwtAux, hGT]
          simp
      | ok tok =>
          rcases hpr : (prs attempt).err with _ | e
          · by_cases htok : isTokenErrorCode (responseErrorCode (prs attempt).resp)
            · simp only [pwtAux, hGT, hpr, htok, if_true]
              simpa using ih (attempt + 1) st2 (sset p2 tn tok) _
            · simp only [pwtAux, hGT, hpr, htok, if_false]
              simp
          · rcases hme : isMWApiError e with _ | me
            · simp only [pwtAux, hGT, hpr, hme]
              simp
            · by_cases htok : isTokenErrorCode me.code
              · simp only [pwtAux, hGT, hpr, hme, htok, if_true]
                simpa using ih (attempt + 1) st2 (sset p2 tn tok) _
              · simp only [pwtAux, hGT, hpr, hme, htok, if_false]
                simp

theorem pwtAux_exhaust (tt tn : String) (fr : Nat → Except GoError SMap)
    (prs : Nat → PostResult) (nc : Bool) (p : SMap)
    (htok : ∀ i, outcomeTokenClassified (prs i) = true)
    (hfetch : ∀ i, fetchOk (fr i) tt = true) :
    ∀ fuel attempt st p2 le, 0 < fuel →
      (pwtAux tt tn fr prs nc p fuel attempt st p2 le).sent.length = fuel ∧
      (pwtAux tt tn fr prs nc p fuel attempt st p2 le).err =
        some (.wrap "token retry exhausted"
          (tokenFailureOf (prs (attempt + fuel - 1)))) := by
  intro fuel
  induction fuel with
  | zero => intro attempt st p2 le h; omega
  | succ fuel ih =>
      intro attempt st p2 le _
      obtain ⟨tok, st2, tr, hGT⟩ := GetToken_ok_of_fetchOk
        (if attempt > 0 || nc then InvalidateToken st tt else st) tt (fr attempt)
        (hfetch attempt)
      have hcls := htok attempt
      rcases hpr : (prs attempt).err with _ | e
      · have hcode : isTokenErrorCode (responseErrorCode (prs attempt).resp) = true := by
          simpa [outcomeTokenClassified, hpr] using hcls
        have hfail : tokenFailureOf (prs attempt) = .api
            { code := responseErrorCode (prs attempt).resp, message := "token error",
              httpStatus := statusOf (prs attempt).resp, errs := [],
              response := (prs attempt).resp } := by
          simp [tokenFailureOf, hpr]
        rcases Nat.eq_zero_or_pos fuel with h0 | hpos
        · subst h0
          simp only [pwtAux, hGT, hpr, hcode, if_true]
          refine ⟨rfl, ?_⟩
          simp [pwtAux, hfail]
        · have ihr := ih (attempt + 1) st2 (sset p2 tn tok)
            (some (tokenFailureOf (prs attempt))) hpos
          rw [hfail] at ihr
          simp only [pwtAux, hGT, hpr, hcode, if_true]
          constructor
          · simp [ihr.1]
          · have hidx : attempt + 1 + fuel - 1 = attempt + (fuel + 1) - 1 := by omega
            rw [hidx] at ihr
            exact ihr.2
      · have hme : ∃ me, isMWApiError e = some me ∧ isTokenErrorCode me.code = true := by
          rcases hm : isMWApiError e with _ | me
          · simp [outcomeTokenClassified, hpr, hm] at hcls
          · refine ⟨me, rfl, ?_⟩
            simpa [outcomeTokenClassified, hpr, hm] using hcls
        obtain ⟨me, hm, hcode⟩ := hme
        have hfail : tokenFailureOf (prs attempt) = e := by
          simp [tokenFailureOf, hpr]
        rcases Nat.eq_zero_or_pos fuel with h0 | hpos
        · subst h0
          simp only [pwtAux, hGT, hpr, hm, hcode, if_true]
          refine ⟨rfl, ?_⟩
          simp [pwtAux, hfail]
        · have ihr := ih (attempt + 1) st2 (sset p2 tn tok) (some e) hpos
          simp only [pwtAux, hGT, hpr, hm, hcode, if_true]
          constructor
          · simp [ihr.1]
          · have hidx : attempt + 1 + fuel - 1 = attempt + (fuel + 1) - 1 := by omega
            rw [hidx] at ihr
            exact ihr.2

theorem pwtAux_abort (tt tn : String) (fr : Nat → Except GoError SMap)
    (prs : Nat → PostResult) (nc : Bool) (p : SMap) :
    ∀ i fuel attempt st p2 le e, i < fuel →
      (∀ j, j < i → outcomeTokenClassified (prs (attempt + j)) = true) →
      (∀ j, j ≤ i → fetchOk (fr (attempt + j)) tt = true) →
      outcomeTokenClassified (prs (attempt + i)) = false →
      (prs (attempt + i)).err = some e →
      (pwtAux tt tn fr prs nc p fuel attempt st p2 le).err = some e ∧
      (pwtAux tt tn fr prs nc p fuel attempt st p2 le).resp = (prs (attempt + i)).resp ∧
      (pwtAux tt tn fr prs nc p fuel attempt st p2 le).sent.length = i + 1 := by
  intro i
  induction i with
  | zero =>
      intro fuel attempt st p2 le e hfuel _ hfetch hout herr
      rcases fuel with _ | fuel
      · omega
      obtain ⟨tok, st2, tr, hGT⟩ := GetToken_ok_of_fetchOk
        (if attempt > 0 || nc then InvalidateToken st tt else st) tt (fr attempt)
        (by simpa using hfetch 0 (Nat.le_refl 0))
      rw [Nat.add_zero] at hout herr
      rcases hme : isMWApiError e with _ | me
      · simp only [pwtAux, hGT, herr, hme]
        simp
      · have htokF : isTokenErrorCode me.code = false := by
          simpa [outcomeTokenClassified, herr, hme] using hout
        simp only [pwtAux, hGT, herr, hme, htokF, if_false]
        simp
  | succ i ih =>
      intro fuel attempt st p2 le e hfuel hprev hfetch hout herr
      rcases fuel with _ | fuel
      · omega
      obtain ⟨tok, st2, tr, hGT⟩ := GetToken_ok_of_fetchOk
        (if attempt > 0 || nc then InvalidateToken st tt else st) tt (fr attempt)
        (by simpa using hfetch 0 (Nat.zero_le _))
      have hcls : outcomeTokenClassified (prs attempt) = true := by
        simpa using hprev 0 (Nat.succ_pos i)
      have hshift : ∀ j, attempt + 1 + j = attempt + (j + 1) := by omega
      have hprev' : ∀ j, j < i → outcomeTokenClassified (prs (attempt + 1 + j)) = true := by
        intro j hj
        rw [hshift j]
        exact hprev (j + 1) (by omega)
      have hfetch' : ∀ j, j ≤ i → fetchOk (fr (attempt + 1 + j)) tt = true := by
        intro j hj
        rw [hshift j]
        exact hfetch (j + 1) (by omega)
      have hout' : outcomeTokenClassified (prs (attempt + 1 + i)) = false := by
        rw [hshift i]
        exact hout
      have herr' : (prs (attempt + 1 + i)).err = some e := by
        rw [hshift i]
        exact herr
      have hres : (prs (attempt + (i + 1))).resp = (prs (attempt + 1 + i)).resp := by
        rw [hshift i]
      rcases hpr : (prs attempt).err with _ | e0
      · have hcode : isTokenErrorCode (responseErrorCode (prs attempt).resp) = true := by
          simpa [outcomeTokenClassified, hpr] using hcls
        have ihr := ih fuel (attempt + 1) st2 (sset p2 tn tok)
          (some (tokenFailureOf (prs attempt))) e (by omega) hprev' hfetch' hout' herr'
        have hfail : tokenFailureOf (prs attempt) = .api
            { code := responseErrorCode (prs attempt).resp, message := "token error",
              httpStatus := statusOf (prs attempt).resp, errs := [],
              response := (prs attempt).resp } := by
          simp [tokenFailureOf, hpr]
        rw [hfail] at ihr
        simp only [pwtAux, hGT, hpr, hcode, if_true]
        rw [hres]
        exact ⟨ihr.1, ihr.2.1, by simp [ihr.2.2]⟩
      · have hme0 : ∃ me0, isMWApiError e0 = some me0 ∧ isTokenErrorCode me0.code = true := by
          rcases hm : isMWApiError e0 with _ | me0
          · simp [outcomeTokenClassified, hpr, hm] at hcls
          · refine ⟨me0, rfl, ?_⟩
            simpa [outcomeTokenClassified, hpr, hm] using hcls
        obtain ⟨me0, hm, hcode⟩ := hme0
        have ihr := ih fuel (attempt + 1) st2 (sset p2 tn tok)
          (some e0) e (by omega) hprev' hfetch' hout' herr'
        simp only [pwtAux, hGT, hpr, hm, hcode, if_true]
        rw [hres]
        exact ⟨ihr.1, ihr.2.1, by simp [ihr.2.2]⟩

theorem pwtAux_sent_shape (tt tn : String) (fr : Nat → Except GoError SMap)
    (prs : Nat → PostResult) (nc : Bool) (p : SMap) :
    ∀ fuel attempt st p2 le, (p2 = p ∨ ∃ t, p2 = sset p tn t) →
      ∀ m ∈ (pwtAux tt tn fr prs nc p fuel attempt st p2 le).sent,
        ∃ t, m = sset p tn t := by
  intro fuel
  induction fuel with
  | zero =>
      intro attempt st p2 le _ m hm
      simp [pwtAux] at hm
  | succ fuel ih =>
      intro attempt st p2 le hp2 m hm
      rcases hGT : GetToken (if attempt > 0 || nc then InvalidateToken st tt else st)
        tt (fr attempt) with ⟨res, st2, tr⟩
      cases res with
      | error e =>
          simp only [pwtAux, hGT] at hm
          simp at hm
      | ok tok =>
          have hnew : ∃ t, sset p2 tn tok = sset p tn t := by
            rcases hp2 with h | ⟨t, h⟩
            · exact ⟨tok, by rw [h]⟩
            · exact ⟨tok, by rw [h, sset_sset]⟩
          rcases hpr : (prs attempt).err with _ | e
          · by_cases htok : isTokenErrorCode (responseErrorCode (prs attempt).resp)
            · simp only [pwtAux, hGT, hpr, htok, if_true] at hm
              simp at hm
              rcases hm with hm | hm
              · rw [hm]
                exact hnew
              · exact ih (attempt + 1) st2 (sset p2 tn tok) _ (Or.inr hnew) m hm
            · simp only [pwtAux, hGT, hpr, htok, if_false] at hm
              simp at hm
              rw [hm]
              exact hnew
          · rcases hme : isMWApiError e with _ | me
            · simp only [pwtAux, hGT, hpr, hme] at hm
              simp at hm
              rw [hm]
              exact hnew
            · by_cases htok : isTokenErrorCode me.code
              · simp only [pwtAux, hGT, hpr, hme, htok, if_true] at hm
                simp at hm
                rcases hm with hm | hm
                · rw [hm]
                  exact hnew
                · exact ih (attempt + 1) st2 (sset p2 tn tok) _ (Or.inr hnew) m hm
              · simp only [pwtAux, hGT, hpr, hme, htok, if_false] at hm
                simp at hm
                rw [hm]
                exact hnew

theorem pwtAux_callerParams (tt tn : String) (fr : Nat → Except GoError SMap)
    (prs : Nat → PostResult) (nc : Bool) (p : SMap) :
    ∀ fuel attempt st p2 le,
      (pwtAux tt tn fr prs nc p fuel attempt st p2 le).callerParams = p := by
  intro fuel
  induction fuel with
  | zero => intro attempt st p2 le; rfl
  | succ fuel ih =>
      intro attempt st p2 le
      rcases hGT : GetToken (if attempt > 0 || nc then InvalidateToken st tt else st)
        tt (fr attempt) with ⟨res, st2, tr⟩
      cases res with
      | error e => simp only [pwtAux, hGT]
      | ok tok =>
          rcases hpr : (prs attempt).err with _ | e
          · by_cases htok : isTokenErrorCode (responseErrorCode (prs attempt).resp)
            · simp only [pwtAux, hGT, hpr, htok, if_true]
              exact ih (attempt + 1) st2 (sset p2 tn tok) _
            · simp only [pwtAux, hGT, hpr, htok, if_false]
              simp
          · rcases hme : isMWApiError e with _ | me
            · simp only [pwtAux, hGT, hpr, hme]
            · by_cases htok : isTokenErrorCode me.code
              · simp only [pwtAux, hGT, hpr, hme, htok, if_true]
                exact ih (attempt + 1) st2 (sset p2 tn tok) _
              · simp only [pwtAux, hGT, hpr, hme, htok, if_false]
                simp

/-- C3: `PostWithToken` performs at most the effective retry budget of
write attempts; the loop continues only past token-classified outcomes
(a token-error code in a transport-successful envelope, or a
`MediaWikiApiError` with a token-error code); a failure that is not
token-classified — in particular a cancellation failure, which is never
an API error and hence never token- or assertion-classified — aborts
immediately and is surfaced unchanged; and when every attempt is
token-classified the result wraps the last token-related failure in the
token-retry-exhausted error. -/
theorem spec_C3_token_retry (tokenRetry : Nat) (st : ClientState)
    (tt : String) (p : SMap) (opt : Option PostWithTokenOptions)
    (fr : Nat → Except GoError SMap) (prs : Nat → PostResult) :
    ((PostWithToken tokenRetry st tt p opt fr prs).sent.length ≤
      effRetry tokenRetry opt) ∧
    ((∀ i, outcomeTokenClassified (prs i) = true) →
      (∀ i, fetchOk (fr i) tt = true) → 0 < effRetry tokenRetry opt →
      (PostWithToken tokenRetry st tt p opt fr prs).sent.length =
        effRetry tokenRetry opt ∧
      (PostWithToken tokenRetry st tt p opt fr prs).err =
        some (.wrap "token retry exhausted"
          (tokenFailureOf (prs (effRetry tokenRetry opt - 1))))) ∧
    (∀ i e, i < effRetry tokenRetry opt →
      (∀ j, j < i → outcomeTokenClassified (prs j) = true) →
      (∀ j, j ≤ i → fetchOk (fr j) tt = true) →
      outcomeTokenClassified (prs i) = false →
      (prs i).err = some e →
      (PostWithToken tokenRetry st tt p opt fr prs).err = some e ∧
      (PostWithToken tokenRetry st tt p opt fr prs).resp = (prs i).resp ∧
      (PostWithToken tokenRetry st tt p opt fr prs).sent.length = i + 1) ∧
    (∀ r, outcomeTokenClassified { resp := r, err := some .canceled } = false ∧
      outcomeAssertClassified { resp := r, err := some .canceled } = false) := by
  refine ⟨?_, ?_, ?_, ?_⟩
  · exact pwtAux_sent_length_le tt (effTokenName opt) fr prs (effNoCache opt) p
      (effRetry tokenRetry opt) 0 st p none
  · intro htok hfetch hpos
    have h := pwtAux_exhaust tt (effTokenName opt) fr prs (effNoCache opt) p
      htok hfetch (effRetry tokenRetry opt) 0 st p none hpos
    simpa using h
  · intro i e hi hprev hfetch hout herr
    have h := pwtAux_abort tt (effTokenName opt) fr prs (effNoCache opt) p
      i (effRetry tokenRetry opt) 0 st p none e hi
      (fun j hj => by simpa using hprev j hj)
      (fun j hj => by simpa using hfetch j hj)
      (by simpa using hout) (by simpa using herr)
    simpa using h
  · intro r
    constructor <;> simp [outcomeTokenClassified, outcomeAssertClassified, isMWApiError]

/-- C3, witness: with the default budget of 3 and a server that always
answers `badtoken`, exactly 3 write attempts are made and the result is
the token-retry-exhausted error wrapping the last token failure; the
hypotheses of the theorem are discharged at this concrete oracle. -/
theorem spec_C3_witness :
    (PostWithToken 3
      { tokens := [], loggedInUser := "", loginUser := "", loginPass := "" }
      "csrf" [("action", "edit")] none (fun _ => .ok [("csrftoken", "T")])
      (fun _ => prBadtoken)).sent.length = 3 ∧
    (PostWithToken 3
      { tokens := [], loggedInUser := "", loginUser := "", loginPass := "" }
      "csrf" [("action", "edit")] none (fun _ => .ok [("csrftoken", "T")])
      (fun _ => prBadtoken)).err =
      some (.wrap "token retry exhausted" (tokenFailureOf prBadtoken)) := by
  have h := (spec_C3_token_retry 3
    { tokens := [], loggedInUser := "", loginUser := "", loginPass := "" }
    "csrf" [("action", "edit")] none (fun _ => .ok [("csrftoken", "T")])
    (fun _ => prBadtoken)).2.1
    (fun _ => by decide) (fun _ => by decide) (by decide)
  exact ⟨h.1, h.2⟩

/-- C10: `PostWithToken` never mutates the caller-supplied parameter
map: the copy it builds receives the token writes, so the caller's map
component of the result is the input unchanged; moreover every write
request actually sent is the caller's map with only the token field
set, and agrees with the caller's map on every other key. -/
theorem spec_C10_no_mutation (tokenRetry : Nat) (st : ClientState)
    (tt : String) (p : SMap) (opt : Option PostWithTokenOptions)
    (fr : Nat → Except GoError SMap) (prs : Nat → PostResult) :
    (PostWithToken tokenRetry st tt p opt fr prs).callerParams = p ∧
    (∀ m, m ∈ (PostWithToken tokenRetry st tt p opt fr prs).sent →
      ∃ t, m = sset p (effTokenName opt) t ∧
        ∀ k, k ≠ effTokenName opt → sget m k = sget p k) := by
  constructor
  · exact pwtAux_callerParams tt (effTokenName opt) fr prs (effNoCache opt) p
      (effRetry tokenRetry opt) 0 st p none
  · intro m hm
    obtain ⟨t, ht⟩ := pwtAux_sent_shape tt (effTokenName opt) fr prs
      (effNoCache opt) p (effRetry tokenRetry opt) 0 st p none (Or.inl rfl) m hm
    refine ⟨t, ht, ?_⟩
    intro k hk
    rw [ht]
    exact sget_sset_ne p (effTokenName opt) k t hk

/-- C10, witness: a concrete call whose single write succeeds leaves the
caller's map untouched and sends it extended only with the token. -/
theorem spec_C10_witness :
    (PostWithToken 3
      { tokens := [], loggedInUser := "", loginUser := "", loginPass := "" }
      "csrf" [("action", "edit")] none (fun _ => .ok [("csrftoken", "T")])
      (fun _ => prOkPlain)).callerParams = [("action", "edit")] ∧
    ∃ t, [("action", "edit"), ("token", "T")] =
      sset [("action", "edit")] (effTokenName none) t := by
  have h := spec_C10_no_mutation 3
    { tokens := [], loggedInUser := "", loginUser := "", loginPass := "" }
    "csrf" [("action", "edit")] none (fun _ => .ok [("csrftoken", "T")])
    (fun _ => prOkPlain)
  refine ⟨h.1, ?_⟩
  obtain ⟨t, ht, _⟩ := h.2 [("action", "edit"), ("token", "T")] (by decide)
  exact ⟨t, ht⟩

theorem doLoopAux_attempts_sent (np : Values) (d : Nat → PostResult)
    (rl : Nat → Option GoError) (maxR : Nat) :
    ∀ fuel attempt le,
      (doLoopAux np d rl maxR fuel attempt le).attempts ≤ fuel ∧
      (doLoopAux np d rl maxR fuel attempt le).sent =
        List.replicate (doLoopAux np d rl maxR fuel attempt le).attempts np := by
  intro fuel
  induction fuel with
  | zero => intro attempt le; simp [doLoopAux]
  | succ fuel ih =>
      intro attempt le
      rcases hpr : (d attempt).err with _ | e
      · by_cases hc : isAssertUserFailedCode (responseErrorCode (d attempt).resp) = true ∧
          attempt < maxR
        · rcases hrl : rl attempt with _ | e2
          · have ihr := ih (attempt + 1) (some (.api
              { code := responseErrorCode (d attempt).resp, message := "assertuser failed",
                httpStatus := statusOf (d attempt).resp, errs := [],
                response := (d attempt).resp }))
            simp only [doLoopAux, hpr, hc, if_true, hrl]
            constructor
            · simpa using ihr.1
            · simp [ihr.2, List.replicate_succ]
          · simp [doLoopAux, hpr, hc, hrl, List.replicate_succ]
        · by_cases hc2 : isAssertUserFailedCode (responseErrorCode (d attempt).resp) = true ∧
            attempt = maxR
          · obtain ⟨hcode, hat⟩ := hc2
            subst hat
            simp [doLoopAux, hpr, hcode, List.replicate_succ]
          · simp [doLoopAux, hpr, hc, hc2, List.replicate_succ]
      · rcases hme : isMWApiError e with _ | me
        · simp [doLoopAux, hpr, hme, List.replicate_succ]
        · by_cases hce : me.code = ""
          · simp [doLoopAux, hpr, hme, hce, List.replicate_succ]
          · by_cases hac : isAssertUserFailedCode me.code = true
            · by_cases hat : attempt = maxR
              · subst hat
                simp [doLoopAux, hpr, hme, hce, hac, List.replicate_succ]
              · rcases hrl : rl attempt with _ | e2
                · have ihr := ih (attempt + 1) (some e)
                  constructor
                  · simp [doLoopAux, hpr, hme, hce, hac, hat, hrl]
                    simpa using ihr.1
                  · simp [doLoopAux, hpr, hme, hce, hac, hat, hrl, ihr.2,
                      List.replicate_succ]
                · simp [doLoopAux, hpr, hme, hce, hac, hat, hrl, List.replicate_succ]
            · simp [doLoopAux, hpr, hme, hce, hac, List.replicate_succ]

theorem doLoopAux_exhaust (np : Values) (d : Nat → PostResult)
    (rl : Nat → Option GoError) (maxR : Nat)
    (hall : ∀ i, outcomeAssertClassified (d i) = true)
    (hrel : ∀ i, rl i = none) :
    ∀ fuel attempt le, attempt + fuel = maxR + 1 → 0 < fuel →
      (doLoopAux np d rl maxR fuel attempt le).attempts = fuel ∧
      (doLoopAux np d rl maxR fuel attempt le).relogins = fuel - 1 ∧
      (doLoopAux np d rl maxR fuel attempt le).err =
        some (assertFailureOf (d maxR)) := by
  intro fuel
  induction fuel with
  | zero => intro attempt le hfa h; omega
  | succ fuel ih =>
      intro attempt le hfa _
      have hcls := hall attempt
      rcases Nat.eq_zero_or_pos fuel with h0 | hpos
      · subst h0
        have hat : attempt = maxR := by omega
        subst hat
        rcases hpr : (d attempt).err with _ | e
        · have hcode : isAssertUserFailedCode (responseErrorCode (d attempt).resp) = true := by
            simpa [outcomeAssertClassified, hpr] using hcls
          simp [doLoopAux, hpr, hcode, assertFailureOf]
        · have hme : ∃ me, isMWApiError e = some me ∧ ¬me.code = "" ∧
              isAssertUserFailedCode me.code = true := by
            rcases hm : isMWApiError e with _ | me
            · simp [outcomeAssertClassified, hpr, hm] at hcls
            · refine ⟨me, rfl, ?_⟩
              by_cases hce : me.code = ""
              · simp [outcomeAssertClassified, hpr, hm, hce] at hcls
              · refine ⟨hce, ?_⟩
                simpa [outcomeAssertClassified, hpr, hm, hce] using hcls
          obtain ⟨me, hm, hce, hac⟩ := hme
          simp [doLoopAux, hpr, hm, hce, hac, assertFailureOf]
      · have hlt : attempt < maxR := by omega
        rcases hpr : (d attempt).err with _ | e
        · have hcode : isAssertUserFailedCode (responseErrorCode (d attempt).resp) = true := by
            simpa [outcomeAssertClassified, hpr] using hcls
          have ihr := ih (attempt + 1) (some (.api
            { code := responseErrorCode (d attempt).resp, message := "assertuser failed",
              httpStatus := statusOf (d attempt).resp, errs := [],
              response := (d attempt).resp })) (by omega) hpos
          have hcond : isAssertUserFailedCode (responseErrorCode (d attempt).resp) = true ∧
              attempt < maxR := ⟨hcode, hlt⟩
          simp only [doLoopAux, hpr, hcond, if_true, hrel attempt]
          refine ⟨by simpa using ihr.1, by simp [ihr.1, ihr.2.1]; omega, by simpa using ihr.2.2⟩
        · have hme : ∃ me, isMWApiError e = some me ∧ ¬me.code = "" ∧
              isAssertUserFailedCode me.code = true := by
            rcases hm : isMWApiError e with _ | me
            · simp [outcomeAssertClassified, hpr, hm] at hcls
            · refine ⟨me, rfl, ?_⟩
              by_cases hce : me.code = ""
              · simp [outcomeAssertClassified, hpr, hm, hce] at hcls
              · refine ⟨hce, ?_⟩
                simpa [outcomeAssertClassified, hpr, hm, hce] using hcls
          obtain ⟨me, hm, hce, hac⟩ := hme
          have hne : ¬attempt = maxR := by omega
          have ihr := ih (attempt + 1) (some e) (by omega) hpos
          constructor
          · simp [doLoopAux, hpr, hm, hce, hac, hne, hrel attempt]
            simpa using ihr.1
          constructor
          · simp [doLoopAux, hpr, hm, hce, hac, hne, hrel attempt]
            simp [ihr.2.1]
            omega
          · simp [doLoopAux, hpr, hm, hce, hac, hne, hrel attempt]
            simpa using ihr.2.2

/-- C4: the relogin-and-replay loop of `do` performs at most
`reloginRetry + 1` attempts and every attempt — in particular every
replay — sends the exact original prepared request, its already-assigned
identity-assertion field included; a single transient assertion failure
causes exactly one relogin and exactly one replay, after which the
replay's response is returned; if Relogin itself fails, the assertion
failure and the relogin failure are surfaced joined together; and when
every attempt is assertion-classified and every relogin succeeds, the
budget is exhausted after `reloginRetry` relogins and the assertion
failure of the final attempt is surfaced as a terminal error (with
budget 0 this means no relogin at all). -/
theorem spec_C4_relogin_replay (keepLogin : Bool) (user : String) (R : Nat)
    (p : Params) (d : Nat → PostResult) (rl : Nat → Option GoError) :
    ((doModel keepLogin user R p d rl).attempts ≤ R + 1) ∧
    ((doModel keepLogin user R p d rl).sent =
      List.replicate (doModel keepLogin user R p d rl).attempts
        (prepared keepLogin user false p)) ∧
    (0 < R → (d 0).err = none → outcomeAssertClassified (d 0) = true →
      rl 0 = none → (d 1).err = none → outcomeAssertClassified (d 1) = false →
      (doModel keepLogin user R p d rl).err = none ∧
      (doModel keepLogin user R p d rl).resp = (d 1).resp ∧
      (doModel keepLogin user R p d rl).attempts = 2 ∧
      (doModel keepLogin user R p d rl).relogins = 1) ∧
    (∀ e2, 0 < R → outcomeAssertClassified (d 0) = true → rl 0 = some e2 →
      (doModel keepLogin user R p d rl).err =
        some (.join (assertFailureOf (d 0)) e2) ∧
      (doModel keepLogin user R p d rl).relogins = 1) ∧
    ((∀ i, outcomeAssertClassified (d i) = true) → (∀ i, rl i = none) →
      (doModel keepLogin user R p d rl).attempts = R + 1 ∧
      (doModel keepLogin user R p d rl).relogins = R ∧
      (doModel keepLogin user R p d rl).err =
        some (assertFailureOf (d R))) := by
  refine ⟨?_, ?_, ?_, ?_, ?_⟩
  · exact (doLoopAux_attempts_sent (prepared keepLogin user false p) d rl R
      (R + 1) 0 none).1
  · exact (doLoopAux_attempts_sent (prepared keepLogin user false p) d rl R
      (R + 1) 0 none).2
  · intro hR he0 hcls0 hrl0 he1 hcls1
    have hcode0 : isAssertUserFailedCode (responseErrorCode (d 0).resp) = true := by
      simpa [outcomeAssertClassified, he0] using hcls0
    have hcode1 : isAssertUserFailedCode (responseErrorCode (d 1).resp) = false := by
      simpa [outcomeAssertClassified, he1] using hcls1
    rcases R with _ | R'
    · omega
    have hc0 : isAssertUserFailedCode (responseErrorCode (d 0).resp) = true ∧
        0 < R' + 1 := ⟨hcode0, by omega⟩
    simp only [doModel, doLoop]
    simp only [doLoopAux, he0, hc0, if_true, hrl0, he1, hcode1]
    simp
  · intro e2 hR hcls0 hrl0
    rcases R with _ | R'
    · omega
    rcases he0 : (d 0).err with _ | e
    · have hcode0 : isAssertUserFailedCode (responseErrorCode (d 0).resp) = true := by
        simpa [outcomeAssertClassified, he0] using hcls0
      have hc0 : isAssertUserFailedCode (responseErrorCode (d 0).resp) = true ∧
          0 < R' + 1 := ⟨hcode0, by omega⟩
      simp only [doModel, doLoop]
      simp only [doLoopAux, he0, hc0, if_true, hrl0]
      simp [assertFailureOf, he0]
    · have hme : ∃ me, isMWApiError e = some me ∧ ¬me.code = "" ∧
          isAssertUserFailedCode me.code = true := by
        rcases hm : isMWApiError e with _ | me
        · simp [outcomeAssertClassified, he0, hm] at hcls0
        · refine ⟨me, rfl, ?_⟩
          by_cases hce : me.code = ""
          · simp [outcomeAssertClassified, he0, hm, hce] at hcls0
          · refine ⟨hce, ?_⟩
            simpa [outcomeAssertClassified, he0, hm, hce] using hcls0
      obtain ⟨me, hm, hce, hac⟩ := hme
      have hne : ¬(0 : Nat) = R' + 1 := by omega
      simp only [doModel, doLoop]
      simp only [doLoopAux, he0, hm, hce, hac, hne, hrl0]
      simp [assertFailureOf, he0, hce, hac]
  · intro hall hrel
    have h := doLoopAux_exhaust (prepared keepLogin user false p) d rl R hall hrel
      (R + 1) 0 none (by omega) (by omega)
    exact ⟨h.1, by simpa using h.2.1, h.2.2⟩

/-- C4, witness: with the default budget 3, a first read answered with
`assertuserfailed` followed by a clean success yields exactly one
relogin and one replay of the identical prepared request. -/
theorem spec_C4_witness :
    (doModel true "UserA" 3 (.strMap [("titles", "Main Page")])
      (fun i => if i = 0 then prAssertFailed else prOkPlain)
      (fun _ => none)).err = none ∧
    (doModel true "UserA" 3 (.strMap [("titles", "Main Page")])
      (fun i => if i = 0 then prAssertFailed else prOkPlain)
      (fun _ => none)).attempts = 2 ∧
    (doModel true "UserA" 3 (.strMap [("titles", "Main Page")])
      (fun i => if i = 0 then prAssertFailed else prOkPlain)
      (fun _ => none)).relogins = 1 ∧
    (doModel true "UserA" 3 (.strMap [("titles", "Main Page")])
      (fun i => if i = 0 then prAssertFailed else prOkPlain)
      (fun _ => none)).sent =
      List.replicate 2 (prepared true "UserA" false (.strMap [("titles", "Main Page")])) := by
  have h := spec_C4_relogin_replay true "UserA" 3 (.strMap [("titles", "Main Page")])
    (fun i => if i = 0 then prAssertFailed else prOkPlain) (fun _ => none)
  have h3 := h.2.2.1 (by decide) (by decide) (by decide) rfl (by decide) (by decide)
  refine ⟨h3.1, h3.2.2.1, h3.2.2.2, ?_⟩
  have hs := h.2.1
  rw [h3.2.2.1] at hs
  exact hs

end WikiSaikou
